import Mathlib

/-!
Verification development for the motion-canvas-fiddle compilation core.

The TypeScript sources embedded here are:
  - src/feature-detector.ts  (detectFeatures, detectDecorators,
    detectComplexExports, detectExternalPackages, BUNDLED_PACKAGES,
    removeComments)
  - src/compiler.ts          (the compileScene strategy/fallback logic and
    the compileWithBabel undeclared-identifier aggregation and
    default-export check)
  - the WebContainer compiler module (bootWebContainer, installDependencies,
    detectOptionalDependencies, the compileWithWebContainer default-export
    check)

JavaScript strings are modelled as List Char.  The regular expressions used
by the feature detector are embedded as executable backtracking matchers
over List Char whose alternatives and greedy quantifiers mirror the JS
regex engine behaviour on these patterns.  Async effects (the Babel
transform, WebContainer process spawns, lazy library loaders) are modelled
as oracle inputs; the control flow around them is translated statement by
statement from the source.
-/

namespace Fiddle

abbrev Str := List Char

/-- Single-quote character, written by code point to keep literals plain. -/
def squote : Char := Char.ofNat 39

/-- Double-quote character. -/
def dquote : Char := Char.ofNat 34

/-- Left curly brace character. -/
def lbrace : Char := Char.ofNat 123

/-- Right curly brace character. -/
def rbrace : Char := Char.ofNat 125

/-- JS regex \w character class: ASCII letters, digits, underscore. -/
def isWordChar (c : Char) : Bool := c.isAlphanum || c == '_'

/-- JS regex \s character class (ASCII part: space, tab, newline, carriage
return, vertical tab, form feed; the unicode space characters are omitted
as none of the claims involves them). -/
def isSpaceChar (c : Char) : Bool :=
  c == ' ' || c == '\t' || c == '\n' || c == '\x0d' ||
  c == Char.ofNat 11 || c == Char.ofNat 12

/-- The quote class [these are the two JS string delimiters]. -/
def isQuoteChar (c : Char) : Bool := c == squote || c == dquote

/-- Boolean list-of-chars prefix test. -/
def isPrefixList : Str → Str → Bool
  | [], _ => true
  | _ :: _, [] => false
  | a :: as, b :: bs => a == b && isPrefixList as bs

/-- Boolean substring test (used to model JS String.prototype.includes). -/
def containsSub (n : Str) : Str → Bool
  | [] => isPrefixList n []
  | c :: rest => isPrefixList n (c :: rest) || containsSub n rest

/-- Boolean membership of a string in a list of strings (models Set.has
over a set of strings). -/
def memStr (x : Str) : List Str → Bool
  | [] => false
  | y :: ys => x == y || memStr x ys

/-! ## Comment stripping (removeComments in feature-detector.ts)

`code.replace(/\/\*[\s\S]*?\*\//g, "")` followed by
`code.replace(/(?<!:)\/\/.*/g, "")`. -/

/-- Drop everything up to and including the first closing block-comment
marker; none when the comment is unterminated (the lazy regex then has no
match, so the text is left as is). -/
def dropAfterClose : Str → Option Str
  | [] => none
  | '*' :: '/' :: rest => some rest
  | _ :: rest => dropAfterClose rest

/-- Fuelled scanner for the global block-comment replace.  The fuel is an
upper bound on the number of scanning steps; each step consumes at least
one input character, so length + 1 fuel always completes the scan. -/
def stripBlockF : Nat → Str → Str
  | 0, l => l
  | _ + 1, [] => []
  | fuel + 1, '/' :: '*' :: rest =>
    match dropAfterClose rest with
    | some rem => stripBlockF fuel rem
    | none => '/' :: '*' :: rest
  | fuel + 1, c :: rest => c :: stripBlockF fuel rest

/-- Return the suffix starting at the next line terminator (the regex dot
does not match newline or carriage return, so those stay in the output). -/
def skipToEol : Str → Str
  | [] => []
  | c :: rest => if c == '\n' || c == '\x0d' then c :: rest else skipToEol rest

/-- Fuelled scanner for the line-comment replace with the negative
lookbehind (?<!:) modelled by tracking the previous original character. -/
def stripLineF : Nat → Option Char → Str → Str
  | 0, _, l => l
  | _ + 1, _, [] => []
  | fuel + 1, prev, '/' :: '/' :: rest =>
    if prev == some ':' then '/' :: stripLineF fuel (some '/') ('/' :: rest)
    else stripLineF fuel prev (skipToEol rest)
  | fuel + 1, _, c :: rest => c :: stripLineF fuel (some c) rest

/-- removeComments from feature-detector.ts: strip block comments, then
line comments (preserving URLs via the lookbehind on a colon). -/
def removeComments (code : Str) : Str :=
  let b := stripBlockF (code.length + 1) code
  stripLineF (b.length + 1) none b

/-! ## Backtracking regex-matcher combinators

Continuation-passing matchers over List Char.  `starK`/`plusK` implement a
greedy quantifier with full backtracking (the longest consumption is tried
first, matching the JS regex engine); `optK` tries the with-group branch
first, as a greedy `?` does.  The continuation result type is an Option so
the same combinators serve the Boolean `.test` uses (α = Unit) and the
capturing `.exec` use (α = Str × Str). -/

section Combinators

variable {α : Type}

/-- Literal string matcher. -/
def litK (s : Str) (l : Str) (k : Str → Option α) : Option α :=
  if isPrefixList s l then k (l.drop s.length) else none

/-- Single character-class matcher. -/
def onceK (p : Char → Bool) (l : Str) (k : Str → Option α) : Option α :=
  match l with
  | [] => none
  | c :: rest => if p c then k rest else none

/-- Greedy `p*` with backtracking: consume as much as possible, falling
back to shorter consumptions (finally zero) until the continuation
succeeds. -/
def starK (p : Char → Bool) : Str → (Str → Option α) → Option α
  | [], k => k []
  | c :: rest, k =>
    if p c then
      match starK p rest k with
      | some v => some v
      | none => k (c :: rest)
    else k (c :: rest)

/-- Greedy `p+` with backtracking. -/
def plusK (p : Char → Bool) (l : Str) (k : Str → Option α) : Option α :=
  match l with
  | [] => none
  | c :: rest => if p c then starK p rest k else none

/-- Greedy `?` over a sub-matcher: try with it first, then without. -/
def optK (a : Str → (Str → Option α) → Option α) (l : Str)
    (k : Str → Option α) : Option α :=
  match a l k with
  | some v => some v
  | none => k l

/-- Ordered alternation over literal alternatives. -/
def anyLitK (kws : List Str) (l : Str) (k : Str → Option α) : Option α :=
  match kws with
  | [] => none
  | s :: rest =>
    match litK s l k with
    | some v => some v
    | none => anyLitK rest l k

/-- Try the matcher at every start position (the regex engine scan for
an unanchored pattern; the position at the very end is tried as well). -/
def anyMatchK (m : Str → Option α) : Str → Option α
  | [] => m []
  | c :: rest =>
    match m (c :: rest) with
    | some v => some v
    | none => anyMatchK m rest

end Combinators

/-! ## Decorator detection (detectDecorators in feature-detector.ts)

Pattern:
@\w+(\([^)]*\))?\s*(?:class|get|set|async|static|public|private|protected|readonly|\w+\s*[:(])
-/

def kwClass : Str := "class".toList

/-- The keyword alternatives of the decorator pattern, in source order. -/
def decorKeywords : List Str :=
  [kwClass, "get".toList, "set".toList, "async".toList, "static".toList,
   "public".toList, "private".toList, "protected".toList, "readonly".toList]

/-- The final alternative \w+\s*[:(] of the decorator pattern. -/
def identColonTail (l : Str) (k : Str → Option Unit) : Option Unit :=
  plusK isWordChar l (fun r1 =>
    starK isSpaceChar r1 (fun r2 =>
      onceK (fun c => c == ':' || c == '(') r2 k))

/-- The keyword alternation of the decorator pattern. -/
def decorKeywordAlt (l : Str) (k : Str → Option Unit) : Option Unit :=
  match anyLitK decorKeywords l k with
  | some v => some v
  | none => identColonTail l k

/-- The optional (\([^)]*\)) group. -/
def parenArgsK {α : Type} (l : Str) (k : Str → Option α) : Option α :=
  onceK (fun c => c == '(') l (fun r1 =>
    starK (fun c => !(c == ')')) r1 (fun r2 =>
      onceK (fun c => c == ')') r2 k))

/-- The end of the decorator pattern: the keyword alternation closes the
match. -/
def decorEndK (r : Str) : Option Unit :=
  decorKeywordAlt r (fun _ => some ())

/-- The \s* followed by the keyword alternation. -/
def decorTailK (r : Str) : Option Unit :=
  starK isSpaceChar r decorEndK

/-- Anchored decorator-pattern match attempt. -/
def matchDecorAt (l : Str) : Option Unit :=
  onceK (fun c => c == '@') l (fun r1 =>
    plusK isWordChar r1 (fun r2 =>
      optK parenArgsK r2 decorTailK))

/-- detectDecorators: decoratorPattern.test(code). -/
def detectDecorators (code : Str) : Bool :=
  (anyMatchK matchDecorAt code).isSome

/-! ## Complex-export detection (detectComplexExports in feature-detector.ts) -/

def litExport : Str := "export".toList

def litFrom : Str := "from".toList

/-- The declaration keywords of /\bexport\s+(class|function|const|let|var|type|interface|enum)/, in source order. -/
def exportDeclKeywords : List Str :=
  [kwClass, "function".toList, "const".toList, "let".toList, "var".toList,
   "type".toList, "interface".toList, "enum".toList]

/-- Anchored match attempt for the export-declaration pattern (without the
leading word boundary, which the counting scanner checks). -/
def matchExportDeclAt (l : Str) : Option Str :=
  litK litExport l (fun r1 =>
    plusK isSpaceChar r1 (fun r2 =>
      anyLitK exportDeclKeywords r2 (fun r3 => some r3)))

/-- Fuelled counter for code.match(/\bexport\s+.../g): the Boolean argument
records whether the previous original character is a word character (the
\b test); after a match the scan resumes at the match end, whose last
character is a keyword letter, hence word. -/
def countExportsF : Nat → Bool → Str → Nat
  | 0, _, _ => 0
  | _ + 1, _, [] => 0
  | fuel + 1, prevWord, c :: rest =>
    if prevWord then countExportsF fuel (isWordChar c) rest
    else
      match matchExportDeclAt (c :: rest) with
      | some rem => countExportsF fuel true rem + 1
      | none => countExportsF fuel (isWordChar c) rest

def countExports (code : Str) : Nat := countExportsF (code.length + 1) false code

/-- Anchored match attempt for /export\s+\*\s+from|export\s+\{[^}]+\}\s+from/. -/
def matchReexportAt (l : Str) : Option Unit :=
  match
    litK litExport l (fun r1 =>
      plusK isSpaceChar r1 (fun r2 =>
        onceK (fun c => c == '*') r2 (fun r3 =>
          plusK isSpaceChar r3 (fun r4 =>
            litK litFrom r4 (fun _ => some ())))))
  with
  | some v => some v
  | none =>
    litK litExport l (fun r1 =>
      plusK isSpaceChar r1 (fun r2 =>
        onceK (fun c => c == lbrace) r2 (fun r3 =>
          plusK (fun c => !(c == rbrace)) r3 (fun r4 =>
            onceK (fun c => c == rbrace) r4 (fun r5 =>
              plusK isSpaceChar r5 (fun r6 =>
                litK litFrom r6 (fun _ => some ())))))))

/-- Anchored match attempt for /export\s+default/. -/
def matchDefaultExportAt (l : Str) : Option Unit :=
  litK litExport l (fun r1 =>
    plusK isSpaceChar r1 (fun r2 =>
      litK ("default".toList) r2 (fun _ => some ())))

/-- detectComplexExports: re-exports present, or more than three export
declarations, or a default export mixed with more than one named export. -/
def detectComplexExports (code : Str) : Bool :=
  let exportCount := countExports code
  let hasReexports := (anyMatchK matchReexportAt code).isSome
  let hasDefaultExport := (anyMatchK matchDefaultExportAt code).isSome
  let hasNamedExports := decide (0 < exportCount)
  let hasMixedExports := hasDefaultExport && hasNamedExports && decide (1 < exportCount)
  hasReexports || decide (3 < exportCount) || hasMixedExports

/-! ## External-package detection (detectExternalPackages in
feature-detector.ts)

The import pattern (the literal import, whitespace, an optional clause of
clause-class characters then the literal from then whitespace, then a
quote, a captured run of non-quote characters, and a closing quote) is
run in a global exec loop; each capture is the quoted import specifier. -/

def litImport : Str := "import".toList

/-- The character class [\w{},\s*] of the optional import clause. -/
def isImportClauseChar (c : Char) : Bool :=
  isWordChar c || c == lbrace || c == rbrace || c == ',' || isSpaceChar c || c == '*'

/-- The optional (?:[\w{},\s*]+\s+from\s+) group. -/
def importClauseK {α : Type} (l : Str) (k : Str → Option α) : Option α :=
  plusK isImportClauseChar l (fun r1 =>
    plusK isSpaceChar r1 (fun r2 =>
      litK litFrom r2 (fun r3 =>
        plusK isSpaceChar r3 k)))

/-- The quoted-specifier tail (open quote, a captured non-empty run of
non-quote characters, close quote): returns the capture and the remainder
after the closing quote.  The greedy non-quote run necessarily stops
at a quote or at the end, so no backtracking is needed here. -/
def quoteCaptureK (l : Str) : Option (Str × Str) :=
  match l with
  | [] => none
  | c :: rest =>
    if isQuoteChar c then
      let body := rest.takeWhile (fun d => !(isQuoteChar d))
      let after := rest.dropWhile (fun d => !(isQuoteChar d))
      if body.isEmpty then none
      else
        match after with
        | q :: rem => if isQuoteChar q then some (body, rem) else none
        | [] => none
    else none

/-- Anchored match attempt for the import pattern; the result is the
captured import specifier and the remainder after the match. -/
def matchImportAt (l : Str) : Option (Str × Str) :=
  litK litImport l (fun r1 =>
    plusK isSpaceChar r1 (fun r2 =>
      optK importClauseK r2 (fun r3 => quoteCaptureK r3)))

/-- Fuelled exec loop: collect the captures of all (non-overlapping,
leftmost) matches, resuming each search at the previous match end. -/
def execImportsF : Nat → Str → List Str
  | 0, _ => []
  | _ + 1, [] => []
  | fuel + 1, c :: rest =>
    match matchImportAt (c :: rest) with
    | some (cap, rem) => cap :: execImportsF fuel rem
    | none => execImportsF fuel rest

def execImports (l : Str) : List Str := execImportsF (l.length + 1) l

/-- BUNDLED_PACKAGES from feature-detector.ts. -/
def bundledPackages : List Str :=
  ["@motion-canvas/core".toList,
   "@motion-canvas/2d".toList,
   "@hhenrichsen/canvas-commons".toList,
   "@spidunno/motion-canvas-graphing".toList,
   "three".toList,
   "shiki".toList,
   "@lezer/common".toList,
   "@lezer/highlight".toList,
   "@lezer/lr".toList,
   "@lezer/cpp".toList,
   "@lezer/css".toList,
   "@lezer/go".toList,
   "@lezer/html".toList,
   "@lezer/java".toList,
   "@lezer/javascript".toList,
   "@lezer/json".toList,
   "@lezer/markdown".toList,
   "@lezer/php".toList,
   "@lezer/python".toList,
   "@lezer/rust".toList,
   "@lezer/sass".toList,
   "@lezer/xml".toList,
   "@lezer/yaml".toList]

/-- Does the specifier start with '.' or '/' (a relative import)? -/
def relStart (s : Str) : Bool :=
  match s with
  | [] => false
  | c :: _ => c == '.' || c == '/'

/-- Package-name normalization: for a scoped specifier with a slash keep
the first two slash-separated parts, otherwise the part before the first
slash (importPath.split("/") indexing in the source). -/
def normalizePkg (s : Str) : Str :=
  match s with
  | [] => []
  | c :: _ =>
    if c == '@' then
      if s.contains '/' then
        let seg1 := s.takeWhile (fun d => !(d == '/'))
        let rest := (s.dropWhile (fun d => !(d == '/'))).tail
        let seg2 := rest.takeWhile (fun d => !(d == '/'))
        seg1 ++ '/' :: seg2
      else s
    else s.takeWhile (fun d => !(d == '/'))

/-- The while loop of detectExternalPackages: skip relative specifiers,
normalize, and push a name when it is neither bundled nor already seen
(the seen set receives exactly the pushed names). -/
def collectPackages (seen : List Str) : List Str → List Str
  | [] => []
  | spec :: rest =>
    if relStart spec then collectPackages seen rest
    else
      let name := normalizePkg spec
      if !(memStr name bundledPackages) && !(memStr name seen) then
        name :: collectPackages (name :: seen) rest
      else collectPackages seen rest

/-- detectExternalPackages from feature-detector.ts (the input is already
comment-stripped by the caller). -/
def detectExternalPackages (code : Str) : List Str :=
  collectPackages [] (execImports code)

/-! ## detectFeatures (feature-detector.ts) -/

structure FeatureFlags where
  hasDecorators : Bool
  hasComplexExports : Bool
  hasExternalPackages : Bool
  externalPackages : List Str
  needsWebContainer : Bool
deriving DecidableEq

/-- detectFeatures: strip comments, run the three detectors, and take the
disjunction for needsWebContainer. -/
def detectFeatures (code : Str) : FeatureFlags :=
  let codeWithoutComments := removeComments code
  let hasDecorators := detectDecorators codeWithoutComments
  let hasComplexExports := detectComplexExports codeWithoutComments
  let externalPackages := detectExternalPackages codeWithoutComments
  let hasExternalPackages := decide (0 < externalPackages.length)
  { hasDecorators := hasDecorators
    hasComplexExports := hasComplexExports
    hasExternalPackages := hasExternalPackages
    externalPackages := externalPackages
    needsWebContainer := hasDecorators || hasComplexExports || hasExternalPackages }

/-! ## Optional-dependency detection and the install cache
(detectOptionalDependencies and installDependencies in the WebContainer
compiler module) -/

def canvasCommonsPkg : Str := "@hhenrichsen/canvas-commons".toList

def graphingPkg : Str := "@spidunno/motion-canvas-graphing".toList

/-- Build the literal from-quoted-package search strings used by the
code.includes tests for three and shiki. -/
def fromQuoted (q : Char) (pkg : Str) : Str :=
  "from ".toList ++ q :: pkg ++ [q]

/-- The lezer package list of detectOptionalDependencies, in source order. -/
def lezerPackages : List Str :=
  ["@lezer/common".toList, "@lezer/highlight".toList, "@lezer/lr".toList,
   "@lezer/cpp".toList, "@lezer/css".toList, "@lezer/go".toList,
   "@lezer/html".toList, "@lezer/java".toList, "@lezer/javascript".toList,
   "@lezer/json".toList, "@lezer/markdown".toList, "@lezer/php".toList,
   "@lezer/python".toList, "@lezer/rust".toList, "@lezer/sass".toList,
   "@lezer/xml".toList, "@lezer/yaml".toList]

/-- detectOptionalDependencies: plain substring checks over the raw source,
pushing package names in source order. -/
def detectOptionalDeps (code : Str) : List Str :=
  (if containsSub canvasCommonsPkg code then [canvasCommonsPkg] else []) ++
  (if containsSub graphingPkg code then [graphingPkg] else []) ++
  (if containsSub (fromQuoted dquote ("three".toList)) code ||
      containsSub (fromQuoted squote ("three".toList)) code
   then ["three".toList] else []) ++
  (if containsSub (fromQuoted dquote ("shiki".toList)) code ||
      containsSub (fromQuoted squote ("shiki".toList)) code
   then ["shiki".toList] else []) ++
  lezerPackages.filter (fun p => containsSub p code)

/-- Object.keys(BASE_DEPENDENCIES), in declaration order. -/
def baseDependencyNames : List Str :=
  ["@motion-canvas/core".toList, "@motion-canvas/2d".toList,
   "vite".toList, "typescript".toList]

/-- UTF-16 code-unit comparison used by the default Array.prototype.sort
comparator on strings (all modelled strings hold BMP characters, where the
code-unit order and the code-point order agree). -/
def lexLe : Str → Str → Bool
  | [], _ => true
  | _ :: _, [] => false
  | a :: as, b :: bs =>
    if a.val < b.val then true
    else if b.val < a.val then false
    else lexLe as bs

def insertStr (x : Str) : List Str → List Str
  | [] => [x]
  | y :: ys => if lexLe x y then x :: y :: ys else y :: insertStr x ys

/-- Insertion sort by lexLe: extensionally the result of the JS
array.sort() on a list of strings. -/
def sortStr : List Str → List Str
  | [] => []
  | x :: xs => insertStr x (sortStr xs)

/-- The currentDeps computation of installDependencies:
[...Object.keys(BASE_DEPENDENCIES), ...usedOptionalDeps,
 ...features.externalPackages].sort(). -/
def computeCurrentDeps (code : Str) (externalPkgs : List Str) : List Str :=
  sortStr (baseDependencyNames ++ detectOptionalDeps code ++ externalPkgs)

inductive InstallError where
  | alreadyInProgress
  | exitFailure (exitCode : Int)
deriving DecidableEq

/-- The module-level WebContainer state fields read and written by
installDependencies. -/
structure WCState where
  installing : Bool
  lastDependencies : List Str
deriving DecidableEq

/-- One call to installDependencies, as a transition on WCState.
spawned records whether an npm install process was spawned. -/
structure InstallOutcome where
  result : Except InstallError Unit
  spawned : Bool
  finalState : WCState

/-- installDependencies: the JSON.stringify comparison of two string
arrays is equality of the lists; the exit code of the spawned install is the
oracle input exitCode; the finally block resets installing on every path
that set it. -/
def installDependenciesModel (st : WCState) (currentDeps : List Str)
    (exitCode : Int) : InstallOutcome :=
  let needsInstall := decide (currentDeps ≠ st.lastDependencies)
  if !needsInstall && decide (0 < st.lastDependencies.length) then
    { result := .ok (), spawned := false, finalState := st }
  else if st.installing then
    { result := .error .alreadyInProgress, spawned := false, finalState := st }
  else if exitCode == 0 then
    { result := .ok (), spawned := true,
      finalState := { installing := false, lastDependencies := currentDeps } }
  else
    { result := .error (.exitFailure exitCode), spawned := true,
      finalState := { installing := false, lastDependencies := st.lastDependencies } }

/-! ## The compilation orchestrator (compileScene in compiler.ts)

The two compiler backends, the canvas-commons lazy loader and the
capability check are oracle inputs; the strategy choice, the preload, the
catch and the fallback are translated from the source.  The event list
records which backends were invoked. -/

inductive CompileEvent where
  | preloadCanvasCommons
  | usedWebContainer
  | usedBabel
deriving DecidableEq

structure CompileOpts where
  forceWebContainer : Bool
  forceBabel : Bool
  hasLoadCanvasCommons : Bool

/-- The environment of one compileScene call: isWebContainerAvailable(),
the loadCanvasCommons outcome, and the results of compileWithWebContainer
and compileWithBabel on this source with these options.  babelResult is by
construction the result of running the Fast Compiler directly on the same
source with the same loader options, since the source passes the identical
argument list at both call sites. -/
structure CompileEnv (V : Type) where
  wcAvailable : Bool
  preloadResult : Except Str Unit
  wcResult : Except Str V
  babelResult : Except Str V

/-- compileScene: strategy selection, the try block (optional
canvas-commons preload, then the WebContainer compiler), the catch with
the forceWebContainer rethrow, and the Babel fallback. -/
def compileSceneModel {V : Type} (code : Str) (opts : CompileOpts)
    (env : CompileEnv V) : Except Str V × List CompileEvent :=
  let features := detectFeatures code
  let shouldUseWebContainer :=
    !opts.forceBabel && (opts.forceWebContainer || features.needsWebContainer) &&
    env.wcAvailable
  if shouldUseWebContainer then
    let preloadNeeded :=
      memStr canvasCommonsPkg features.externalPackages && opts.hasLoadCanvasCommons
    let tryOutcome : Except Str V × List CompileEvent :=
      if preloadNeeded then
        match env.preloadResult with
        | .ok _ =>
          match env.wcResult with
          | .ok v => (.ok v, [.preloadCanvasCommons, .usedWebContainer])
          | .error e => (.error e, [.preloadCanvasCommons, .usedWebContainer])
        | .error e => (.error e, [.preloadCanvasCommons])
      else
        match env.wcResult with
        | .ok v => (.ok v, [.usedWebContainer])
        | .error e => (.error e, [.usedWebContainer])
    match tryOutcome with
    | (.ok v, evs) => (.ok v, evs)
    | (.error e, evs) =>
      if opts.forceWebContainer then (.error e, evs)
      else (env.babelResult, evs ++ [.usedBabel])
  else
    (env.babelResult, [.usedBabel])

/-! ## Name-resolution aggregation (compileWithBabel in compiler.ts)

The Babel scope analysis is external; its stream of ReferencedIdentifier
events is the oracle input, each event carrying the identifier name and
scope.hasBinding(name).  The plugin body and the aggregate-error assembly
are translated from the source. -/

/-- The globals allow-list of compileWithBabel. -/
def jsGlobals : List Str :=
  ["console".toList, "window".toList, "document".toList, "setTimeout".toList,
   "setInterval".toList, "clearTimeout".toList, "clearInterval".toList,
   "fetch".toList, "URL".toList, "Blob".toList, "Promise".toList,
   "Array".toList, "Object".toList, "Math".toList, "Date".toList,
   "JSON".toList, "parseInt".toList, "parseFloat".toList, "isNaN".toList,
   "isFinite".toList]

/-- Does one ReferencedIdentifier event make the plugin record a
diagnostic?  (name, hasBinding) with no binding and not in globals. -/
def isUndeclaredEvent (ev : Str × Bool) : Bool :=
  !ev.2 && !(memStr ev.1 jsGlobals)

/-- The undeclaredVariables Set in visit order: JS Set keeps insertion
order and drops duplicates. -/
def undeclaredOf (seen : List Str) : List (Str × Bool) → List Str
  | [] => []
  | ev :: rest =>
    if isUndeclaredEvent ev then
      if memStr ev.1 seen then undeclaredOf seen rest
      else ev.1 :: undeclaredOf (ev.1 :: seen) rest
    else undeclaredOf seen rest

/-- errors.length: one push per undeclared occurrence. -/
def errorCountOf : List (Str × Bool) → Nat
  | [] => 0
  | ev :: rest => (if isUndeclaredEvent ev then 1 else 0) + errorCountOf rest

/-- Array.from(set).join(", ") -/
def joinSep (sep : Str) : List Str → Str
  | [] => []
  | [x] => x
  | x :: y :: rest => x ++ sep ++ joinSep sep (y :: rest)

def cannotFindHead : Str := "Cannot find names: ".toList

def didYouForgetSuffix : Str := "\nDid you forget to import them?".toList

/-- The post-transform check of compileWithBabel for a source whose
transform succeeded (errorMessage is null): if any diagnostics were
collected, throw the aggregate error naming every undeclared identifier. -/
def babelNameResolution (events : List (Str × Bool)) : Except Str Unit :=
  if 0 < errorCountOf events then
    .error (cannotFindHead ++ joinSep (", ".toList) (undeclaredOf [] events) ++
      didYouForgetSuffix)
  else .ok ()

/-! ## Default-export checks (compileWithBabel in compiler.ts and
compileWithWebContainer in the WebContainer module)

The default export of the executed module is the oracle input, modelled as a JS
value (undefined when the module has no default export); both checks test
its truthiness. -/

inductive JsValue where
  | undef
  | nullv
  | boolv (b : Bool)
  | numv (n : Int)
  | strv (s : Str)
  | objv
deriving DecidableEq

/-- JS truthiness (NaN is not representable here; integers model the
numbers the claims use). -/
def truthy : JsValue → Bool
  | .undef => false
  | .nullv => false
  | .boolv b => b
  | .numv n => decide (n ≠ 0)
  | .strv s => decide (s ≠ [])
  | .objv => true

def babelNoDefaultMsg : Str := "Code must export a default scene".toList

def babelWrapHead : Str := "Compilation error: ".toList

def wcNoDefaultMsg : Str := "Compiled code must export a default scene".toList

def wcWrapHead : Str := "WebContainer compilation failed: ".toList

/-- The phrase shared by the missing-default errors of both paths. -/
def scenePhrase : Str := "must export a default scene".toList

/-- if (!sceneModule.default) throw new Error("Code must export a default
scene"); return sceneModule.default -/
def babelDefaultCheck (d : JsValue) : Except Str JsValue :=
  if truthy d then .ok d else .error babelNoDefaultMsg

/-- The same check wrapped by the outer catch of compileWithBabel, which
prefixes "Compilation error: ". -/
def babelFinalStage (d : JsValue) : Except Str JsValue :=
  match babelDefaultCheck d with
  | .ok v => .ok v
  | .error m => .error (babelWrapHead ++ m)

/-- if (!sceneModule.default) throw new Error("Compiled code must export a
default scene") -/
def wcDefaultCheck (d : JsValue) : Except Str JsValue :=
  if truthy d then .ok d else .error wcNoDefaultMsg

/-- The same check wrapped by the outer catch of compileWithWebContainer, which
prefixes "WebContainer compilation failed: ". -/
def wcFinalStage (d : JsValue) : Except Str JsValue :=
  match wcDefaultCheck d with
  | .ok v => .ok v
  | .error m => .error (wcWrapHead ++ m)

/-! ## Boot lifecycle (bootWebContainer in the WebContainer module)

bootWebContainer executes two atomic blocks separated by the await of
WebContainer.boot():
  block 1: read state.instance/state.booted; return early when both are
           set; otherwise initiate a boot (the await suspends here);
  block 2: when the boot resolves, write state.instance and state.booted.
There is no in-flight promise in the source: state.instance and
state.booted are written only in block 2, so a second caller whose block 1
runs while the boot of the first caller is pending sees the unmodified state
and initiates a second boot. -/

structure BootState where
  instRef : Option Nat
  booted : Bool
  bootsStarted : Nat
deriving DecidableEq

/-- Block 1 of bootWebContainer for one caller; the Boolean reports
whether this caller initiated a boot. -/
def bootCheck (st : BootState) : BootState × Bool :=
  if st.instRef.isSome && st.booted then (st, false)
  else ({ st with bootsStarted := st.bootsStarted + 1 }, true)

/-- Block 2 of bootWebContainer: the resolved boot writes the instance
and the booted flag. -/
def bootFinish (st : BootState) (id : Nat) : BootState :=
  { st with instRef := some id, booted := true }

/-- The interleaving in which block 1 of caller B runs while the boot of
caller A is pending: A check, B check, A finish, B finish. -/
def doubleBootRun : BootState :=
  let s0 : BootState := { instRef := none, booted := false, bootsStarted := 0 }
  let s1 := (bootCheck s0).1
  let s2 := (bootCheck s1).1
  let s3 := bootFinish s2 1
  bootFinish s3 2

/-! ## Specification-side description of external-package detection

These definitions follow the wording of the spec for the refinement claim about
detectExternalPackages: scan the import-from specifiers in order, skip
relative specifiers, normalize each to a package name, keep the first
occurrence of each name only, and exclude the names on the bundled
allow-list.  They share the specifier extraction and the normalization
with the code-side embedding, exactly as the spec phrases those steps, and
differ in how the pipeline is staged. -/

/-- Skip relative specifiers and normalize the rest, in order. -/
def specSkipNormalize : List Str → List Str
  | [] => []
  | spec :: rest =>
    if relStart spec then specSkipNormalize rest
    else normalizePkg spec :: specSkipNormalize rest

/-- Keep the first occurrence of each name only. -/
def specDedupFirst (seen : List Str) : List Str → List Str
  | [] => []
  | n :: rest =>
    if memStr n seen then specDedupFirst seen rest
    else n :: specDedupFirst (n :: seen) rest

/-- The specification external-package list: scan import-from specifiers in
comment-stripped source in order, skip relative ones, normalize, keep
first occurrences, exclude the bundled allow-list. -/
def specExternalPackages (code : Str) : List Str :=
  (specDedupFirst [] (specSkipNormalize (execImports (removeComments code)))).filter
    (fun n => !(memStr n bundledPackages))

/-! ## Concrete sources used by witnesses and counterexamples -/

/-- The source importing x from the unknown package leftpad. -/
def leftpadSource : Str :=
  "import ".toList ++ [lbrace] ++ "x".toList ++ [rbrace] ++ " from ".toList ++
  [squote] ++ "leftpad".toList ++ [squote]

/-- A source whose only import is Circle from the bundled allow-list
package motion-canvas 2d. -/
def bundledOnlySource : Str :=
  "import ".toList ++ [lbrace] ++ "Circle".toList ++ [rbrace] ++ " from ".toList ++
  [squote] ++ "@motion-canvas/2d".toList ++ [squote]

/-- The source "/* @A class */": it contains the decorator-shaped
substring "@A class", but only inside a block comment. -/
def commentedDecoratorSource : Str :=
  ['/', '*', ' ', '@', 'A', ' ', 'c', 'l', 'a', 's', 's', ' ', '*', '/']

/-- The source "@Component\nclass Foo {}". -/
def decoratorSource : Str :=
  "@Component\nclass Foo ".toList ++ [lbrace, rbrace]

/-! # Theorems -/

/-! ## Field equations of detectFeatures -/

theorem detectFeatures_hasDecorators (code : Str) :
    (detectFeatures code).hasDecorators = detectDecorators (removeComments code) := rfl

theorem detectFeatures_externalPackages (code : Str) :
    (detectFeatures code).externalPackages = detectExternalPackages (removeComments code) := rfl

theorem detectFeatures_hasExternalPackages (code : Str) :
    (detectFeatures code).hasExternalPackages =
      decide (0 < (detectExternalPackages (removeComments code)).length) := rfl

theorem detectFeatures_needsWebContainer (code : Str) :
    (detectFeatures code).needsWebContainer =
      (detectDecorators (removeComments code) ||
       detectComplexExports (removeComments code) ||
       decide (0 < (detectExternalPackages (removeComments code)).length)) := rfl

/-! ## Combinator lemmas -/

theorem isPrefixList_append (s r : Str) : isPrefixList s (s ++ r) = true := by
  induction s with
  | nil => rfl
  | cons c cs ih => simp [isPrefixList, ih]

theorem dropLenAppend (s r : Str) : (s ++ r).drop s.length = r := by
  induction s with
  | nil => rfl
  | cons c cs ih => simp [ih]

theorem litK_append {α : Type} (s r : Str) (k : Str → Option α) :
    litK s (s ++ r) k = k r := by
  simp [litK, isPrefixList_append, dropLenAppend]

theorem onceK_cons {α : Type} (p : Char → Bool) (c : Char) (r : Str)
    (k : Str → Option α) (hc : p c = true) : onceK p (c :: r) k = k r := by
  simp [onceK, hc]

theorem starK_isSome_of_k {α : Type} (p : Char → Bool) (k : Str → Option α) :
    ∀ l, (k l).isSome = true → (starK p l k).isSome = true := by
  intro l hk
  cases l with
  | nil => simpa [starK] using hk
  | cons c rest =>
    by_cases hp : p c = true
    · cases hs : starK p rest k with
      | some v => simp [starK, hp, hs]
      | none => simpa [starK, hp, hs] using hk
    · have hp' : p c = false := by
        cases h : p c with
        | true => exact absurd h hp
        | false => rfl
      simpa [starK, hp'] using hk

theorem starK_isSome_append {α : Type} (p : Char → Bool) (k : Str → Option α) :
    ∀ (a r : Str), (∀ c ∈ a, p c = true) → (k r).isSome = true →
    (starK p (a ++ r) k).isSome = true := by
  intro a
  induction a with
  | nil => intro r _ hk; exact starK_isSome_of_k p k r hk
  | cons c as ih =>
    intro r hall hk
    have hc : p c = true := hall c (by simp)
    have hrest := ih r (fun d hd => hall d (by simp [hd])) hk
    cases hs : starK p (as ++ r) k with
    | some v => simp [starK, hc, hs]
    | none => rw [hs] at hrest; simp at hrest

theorem plusK_isSome_append {α : Type} (p : Char → Bool) (k : Str → Option α)
    (c : Char) (a r : Str) (hc : p c = true) (hall : ∀ d ∈ a, p d = true)
    (hk : (k r).isSome = true) :
    (plusK p (c :: (a ++ r)) k).isSome = true := by
  simpa [plusK, hc] using starK_isSome_append p k a r hall hk

theorem optK_isSome_of_skip {α : Type}
    (a : Str → (Str → Option α) → Option α) (l : Str) (k : Str → Option α)
    (hk : (k l).isSome = true) : (optK a l k).isSome = true := by
  cases ha : a l k with
  | some v => simp [optK, ha]
  | none => simpa [optK, ha] using hk

theorem optK_isSome_of_use {α : Type}
    (a : Str → (Str → Option α) → Option α) (l : Str) (k : Str → Option α)
    (ha : (a l k).isSome = true) : (optK a l k).isSome = true := by
  cases h : a l k with
  | some v => simp [optK, h]
  | none => rw [h] at ha; simp at ha

theorem anyLitK_isSome_head {α : Type} (s : Str) (rest : List Str) (l : Str)
    (k : Str → Option α) (h : (litK s l k).isSome = true) :
    (anyLitK (s :: rest) l k).isSome = true := by
  cases hl : litK s l k with
  | some v => simp [anyLitK, hl]
  | none => rw [hl] at h; simp at h

theorem anyMatchK_isSome_self {α : Type} (m : Str → Option α) :
    ∀ t, (m t).isSome = true → (anyMatchK m t).isSome = true := by
  intro t hm
  cases t with
  | nil => simpa [anyMatchK] using hm
  | cons c rest =>
    cases h : m (c :: rest) with
    | some v => simp [anyMatchK, h]
    | none => rw [h] at hm; simp at hm

theorem anyMatchK_isSome_append {α : Type} (m : Str → Option α) :
    ∀ (a t : Str), (m t).isSome = true → (anyMatchK m (a ++ t)).isSome = true := by
  intro a
  induction a with
  | nil => intro t hm; exact anyMatchK_isSome_self m t hm
  | cons c as ih =>
    intro t hm
    cases h : m (c :: (as ++ t)) with
    | some v => simp [anyMatchK, h]
    | none => simpa [anyMatchK, h] using ih t hm

/-! ## Success of the decorator matcher on decorator-shaped text -/

theorem decorKeywordAlt_isSome_of_lit (l : Str) (k : Str → Option Unit)
    (h : (anyLitK decorKeywords l k).isSome = true) :
    (decorKeywordAlt l k).isSome = true := by
  cases hl : anyLitK decorKeywords l k with
  | some v => simp [decorKeywordAlt, hl]
  | none => rw [hl] at h; simp at h

theorem decorEndK_isSome (post : Str) : (decorEndK (kwClass ++ post)).isSome = true := by
  apply decorKeywordAlt_isSome_of_lit
  have hkws : decorKeywords =
      kwClass :: ["get".toList, "set".toList, "async".toList, "static".toList,
        "public".toList, "private".toList, "protected".toList, "readonly".toList] := rfl
  rw [hkws]
  apply anyLitK_isSome_head
  rw [litK_append]
  rfl

theorem decorTailK_isSome (ws post : Str) (hws : ∀ c ∈ ws, isSpaceChar c = true) :
    (decorTailK (ws ++ (kwClass ++ post))).isSome = true :=
  starK_isSome_append isSpaceChar decorEndK ws (kwClass ++ post) hws (decorEndK_isSome post)

theorem parenArgsK_isSome (inner ws post : Str)
    (hin : ∀ c ∈ inner, (c == ')') = false)
    (hws : ∀ c ∈ ws, isSpaceChar c = true) :
    (parenArgsK ('(' :: (inner ++ (')' :: (ws ++ (kwClass ++ post))))) decorTailK).isSome
      = true := by
  rw [parenArgsK, onceK_cons _ _ _ _ (by rfl)]
  apply starK_isSome_append _ _ inner (')' :: (ws ++ (kwClass ++ post)))
  · intro c hc
    simp [hin c hc]
  · rw [onceK_cons _ _ _ _ (by rfl)]
    exact decorTailK_isSome ws post hws

theorem matchDecorAt_isSome (w args ws post : Str)
    (hw : w ≠ []) (hwall : ∀ c ∈ w, isWordChar c = true)
    (hargs : args = [] ∨
      ∃ inner, args = '(' :: (inner ++ [')']) ∧ ∀ c ∈ inner, (c == ')') = false)
    (hws : ∀ c ∈ ws, isSpaceChar c = true) :
    (matchDecorAt ('@' :: (w ++ (args ++ (ws ++ (kwClass ++ post)))))).isSome = true := by
  rw [matchDecorAt, onceK_cons _ _ _ _ (by rfl)]
  cases w with
  | nil => exact absurd rfl hw
  | cons c wtail =>
    rw [List.cons_append]
    apply plusK_isSome_append isWordChar _ c wtail _ (hwall c (by simp))
      (fun d hd => hwall d (by simp [hd]))
    cases hargs with
    | inl hnil =>
      subst hnil
      rw [List.nil_append]
      exact optK_isSome_of_skip parenArgsK _ decorTailK (decorTailK_isSome ws post hws)
    | inr hparen =>
      obtain ⟨inner, hinner, hin⟩ := hparen
      subst hinner
      apply optK_isSome_of_use parenArgsK _ decorTailK
      have hshape : ('(' :: (inner ++ [')'])) ++ (ws ++ (kwClass ++ post)) =
          '(' :: (inner ++ (')' :: (ws ++ (kwClass ++ post)))) := by
        simp [List.append_assoc]
      rw [hshape]
      exact parenArgsK_isSome inner ws post hin hws

theorem detectDecorators_of_shape (stripped pre w args ws post : Str)
    (hsplit : stripped = pre ++ ('@' :: (w ++ args ++ ws ++ kwClass)) ++ post)
    (hw : w ≠ []) (hwall : ∀ c ∈ w, isWordChar c = true)
    (hargs : args = [] ∨
      ∃ inner, args = '(' :: (inner ++ [')']) ∧ ∀ c ∈ inner, (c == ')') = false)
    (hws : ∀ c ∈ ws, isSpaceChar c = true) :
    detectDecorators stripped = true := by
  have h1 : stripped = pre ++ ('@' :: (w ++ (args ++ (ws ++ (kwClass ++ post))))) := by
    rw [hsplit]; simp [List.append_assoc]
  rw [detectDecorators, h1]
  exact anyMatchK_isSome_append matchDecorAt pre _
    (matchDecorAt_isSome w args ws post hw hwall hargs hws)

/-! ## The code-side package collection equals the spec-side pipeline -/

theorem collect_eq_spec : ∀ (l : List Str) (seenC seenS : List Str),
    (∀ n : Str, memStr n bundledPackages = false → memStr n seenC = memStr n seenS) →
    collectPackages seenC l =
      (specDedupFirst seenS (specSkipNormalize l)).filter
        (fun n => !(memStr n bundledPackages)) := by
  intro l
  induction l with
  | nil => intro seenC seenS _; rfl
  | cons spec rest ih =>
    intro seenC seenS hinv
    cases hrel : relStart spec with
    | true =>
      simp only [collectPackages, specSkipNormalize, hrel, if_true]
      exact ih seenC seenS hinv
    | false =>
      simp only [collectPackages, specSkipNormalize, hrel, if_false, Bool.false_eq_true,
        if_neg, reduceIte]
      cases hb : memStr (normalizePkg spec) bundledPackages with
      | true =>
        cases hs : memStr (normalizePkg spec) seenS with
        | true =>
          simp only [specDedupFirst, hs, if_true, hb, Bool.not_true, Bool.false_and,
            Bool.false_eq_true, reduceIte]
          exact ih seenC seenS hinv
        | false =>
          simp only [specDedupFirst, hs, Bool.false_eq_true, reduceIte, hb,
            Bool.not_true, Bool.false_and, List.filter_cons]
          rw [ih seenC (normalizePkg spec :: seenS) ?_]
          intro n hn
          rw [hinv n hn]
          have hne : (n == normalizePkg spec) = false := by
            rw [beq_eq_false_iff_ne]
            intro heq
            rw [heq] at hn
            rw [hn] at hb
            exact Bool.false_ne_true hb
          simp [memStr, hne]
      | false =>
        have hcs := hinv (normalizePkg spec) hb
        cases hs : memStr (normalizePkg spec) seenS with
        | true =>
          have hc : memStr (normalizePkg spec) seenC = true := by rw [hcs, hs]
          simp only [specDedupFirst, hs, if_true, hb, hc, Bool.not_true, Bool.not_false,
            Bool.and_false, Bool.true_and, Bool.false_eq_true, reduceIte]
          exact ih seenC seenS hinv
        | false =>
          have hc : memStr (normalizePkg spec) seenC = false := by rw [hcs, hs]
          simp only [specDedupFirst, hs, Bool.false_eq_true, reduceIte, hb, hc,
            Bool.not_false, Bool.true_and, Bool.and_true, if_true, List.filter_cons,
            Bool.not_true]
          rw [ih (normalizePkg spec :: seenC) (normalizePkg spec :: seenS) ?_]
          intro n hn
          simp only [memStr]
          rw [hinv n hn]

theorem external_packages_eq_spec (code : Str) :
    detectExternalPackages (removeComments code) = specExternalPackages code := by
  rw [detectExternalPackages, specExternalPackages]
  exact collect_eq_spec (execImports (removeComments code)) [] [] (fun n _ => rfl)

/-- Claim C5: for every source string, detectFeatures returns
externalPackages equal to the spec-described pipeline (scan import-from
specifiers of the comment-stripped source in order, skip relative ones,
normalize to package names, keep first occurrences only, exclude the
bundled allow-list), and hasExternalPackages is true exactly when that
list is non-empty; moreover the leftpad example source yields
exactly the list ["leftpad"] with needsWebContainer = true, and a source
importing only allow-listed packages yields the empty list. -/
theorem externalPackageDetection :
    (∀ code : Str,
      (detectFeatures code).externalPackages = specExternalPackages code ∧
      (detectFeatures code).hasExternalPackages = !((specExternalPackages code).isEmpty)) ∧
    (detectFeatures leftpadSource).externalPackages = ["leftpad".toList] ∧
    (detectFeatures leftpadSource).needsWebContainer = true ∧
    (detectFeatures bundledOnlySource).externalPackages = [] := by
  refine ⟨fun code => ⟨?_, ?_⟩, by decide, by decide, by decide⟩
  · rw [detectFeatures_externalPackages]
    exact external_packages_eq_spec code
  · rw [detectFeatures_hasExternalPackages, external_packages_eq_spec code]
    generalize specExternalPackages code = l
    cases l with
    | nil => rfl
    | cons h t => simp

/-- Claim C8 (amended): every source string whose comment-stripped form
contains a substring of the decorator shape (an @-identifier, optionally
parenthesized arguments, then optional whitespace, then the declaration
keyword class) makes detectFeatures return hasDecorators = true and
therefore needsWebContainer = true.  The amendment restricts the claim to
the comment-stripped source: detectFeatures removes comments before the
decorator scan, so a decorator-shaped substring lying inside a comment
does not count (see the counterexample). -/
theorem decoratorGate (code pre w args ws post : Str)
    (hsplit : removeComments code = pre ++ ('@' :: (w ++ args ++ ws ++ kwClass)) ++ post)
    (hw : w ≠ []) (hwall : ∀ c ∈ w, isWordChar c = true)
    (hargs : args = [] ∨
      ∃ inner, args = '(' :: (inner ++ [')']) ∧ ∀ c ∈ inner, (c == ')') = false)
    (hws : ∀ c ∈ ws, isSpaceChar c = true) :
    (detectFeatures code).hasDecorators = true ∧
    (detectFeatures code).needsWebContainer = true := by
  have hd := detectDecorators_of_shape (removeComments code) pre w args ws post
    hsplit hw hwall hargs hws
  refine ⟨?_, ?_⟩
  · rw [detectFeatures_hasDecorators]
    exact hd
  · rw [detectFeatures_needsWebContainer, hd]
    rfl

/-- Witness for claim C8: the source "@Component\nclass Foo {}" satisfies
the shape hypothesis with pre = "", w = "Component", no arguments,
ws = "\n", post = " Foo {}", and detectFeatures flags it. -/
theorem decoratorGate_w :
    (removeComments decoratorSource =
      [] ++ ('@' :: ("Component".toList ++ [] ++ ['\n'] ++ kwClass)) ++
        (" Foo ".toList ++ [lbrace, rbrace])) ∧
    ((detectFeatures decoratorSource).hasDecorators = true ∧
     (detectFeatures decoratorSource).needsWebContainer = true) :=
  ⟨by decide,
   decoratorGate decoratorSource [] ("Component".toList) [] ['\n']
     (" Foo ".toList ++ [lbrace, rbrace]) (by decide) (by decide) (by decide)
     (Or.inl rfl) (by decide)⟩

/-- Counterexample for claim C8 as stated: the source "/* @A class */"
contains the decorator-shaped substring "@A class" (identifier "A", no
arguments, whitespace " ", keyword class), yet detectFeatures returns
hasDecorators = false and needsWebContainer = false, because the
substring lies inside a block comment that is stripped before the
decorator scan. -/
theorem decoratorGate_cex :
    commentedDecoratorSource =
      ['/', '*', ' '] ++ ('@' :: (['A'] ++ [] ++ [' '] ++ kwClass)) ++ [' ', '*', '/'] ∧
    (['A'] : Str) ≠ [] ∧
    (∀ c ∈ (['A'] : Str), isWordChar c = true) ∧
    (∀ c ∈ ([' '] : Str), isSpaceChar c = true) ∧
    (detectFeatures commentedDecoratorSource).hasDecorators = false ∧
    (detectFeatures commentedDecoratorSource).needsWebContainer = false := by
  refine ⟨by decide, by decide, by decide, by decide, by decide, by decide⟩

/-! ## Name-resolution aggregation lemmas -/

theorem errorCountOf_pos (events : List (Str × Bool)) (ev : Str × Bool)
    (hmem : ev ∈ events) (hund : isUndeclaredEvent ev = true) :
    0 < errorCountOf events := by
  induction events with
  | nil => simp at hmem
  | cons e rest ih =>
    rcases List.mem_cons.mp hmem with heq | hrest
    · subst heq
      simp [errorCountOf, hund]
    · have := ih hrest
      cases h : isUndeclaredEvent e with
      | false => simpa [errorCountOf, h] using this
      | true => simp [errorCountOf, h]

theorem mem_undeclaredOf (name : Str) :
    ∀ (events : List (Str × Bool)) (seen : List Str),
      (name, false) ∈ events → isUndeclaredEvent (name, false) = true →
      memStr name seen = false → name ∈ undeclaredOf seen events := by
  intro events
  induction events with
  | nil => intro seen hmem _ _; simp at hmem
  | cons ev rest ih =>
    intro seen hmem hund hseen
    rcases List.mem_cons.mp hmem with heq | hrest
    · rw [← heq]
      simp only [undeclaredOf, hund, if_true, hseen, Bool.false_eq_true, reduceIte]
      exact List.mem_cons_self _ _
    · cases hu : isUndeclaredEvent ev with
      | false =>
        simp only [undeclaredOf, hu, Bool.false_eq_true, reduceIte]
        exact ih seen hrest hund hseen
      | true =>
        cases hm : memStr ev.1 seen with
        | true =>
          simp only [undeclaredOf, hu, if_true, hm]
          exact ih seen hrest hund hseen
        | false =>
          simp only [undeclaredOf, hu, if_true, hm, Bool.false_eq_true, reduceIte]
          by_cases hne : name = ev.1
          · rw [hne]
            exact List.mem_cons_self _ _
          · apply List.mem_cons_of_mem
            apply ih (ev.1 :: seen) hrest hund
            have hb : (name == ev.1) = false := by
              rw [beq_eq_false_iff_ne]
              exact hne
            simp [memStr, hb, hseen]

theorem containsSub_self_append (n b : Str) : containsSub n (n ++ b) = true := by
  cases n with
  | nil =>
    cases b with
    | nil => rfl
    | cons c r => simp [containsSub, isPrefixList]
  | cons m ms =>
    have h := isPrefixList_append (m :: ms) b
    simp only [List.cons_append] at h
    simp [containsSub, h]

theorem containsSub_append_mid (a n b : Str) : containsSub n (a ++ (n ++ b)) = true := by
  induction a with
  | nil => simpa using containsSub_self_append n b
  | cons c as ih => simp [containsSub, ih]

theorem joinSep_mem (sep : Str) :
    ∀ (xs : List Str) (x : Str), x ∈ xs →
      ∃ a b, joinSep sep xs = a ++ (x ++ b) := by
  intro xs
  induction xs with
  | nil => intro x hx; simp at hx
  | cons y ys ih =>
    intro x hx
    rcases List.mem_cons.mp hx with heq | hmem
    · subst heq
      cases ys with
      | nil => exact ⟨[], [], by simp [joinSep]⟩
      | cons z zs => exact ⟨[], sep ++ joinSep sep (z :: zs), by simp [joinSep]⟩
    · obtain ⟨a, b, hj⟩ := ih x hmem
      cases ys with
      | nil => simp at hmem
      | cons z zs =>
        refine ⟨y ++ sep ++ a, b, ?_⟩
        simp only [joinSep]
        rw [hj]
        simp [List.append_assoc]

/-- Claim C7: whenever the identifier walk of the transform reports a
referenced identifier that has no lexical binding (which covers
identifiers introduced by no import) and that is not on the host-global
allow-list, the Fast Compiler rejects, and its aggregate rejection
message contains the name of that identifier.  The Babel scope analysis is the
oracle: each ReferencedIdentifier event carries the name and
scope.hasBinding(name). -/
theorem unresolvedNameRejection (events : List (Str × Bool)) (name : Str)
    (hmem : (name, false) ∈ events)
    (hng : memStr name jsGlobals = false) :
    ∃ m, babelNameResolution events = .error m ∧ containsSub name m = true := by
  have hund : isUndeclaredEvent (name, false) = true := by
    simp [isUndeclaredEvent, hng]
  have hpos : 0 < errorCountOf events := errorCountOf_pos events (name, false) hmem hund
  have hmem2 : name ∈ undeclaredOf [] events :=
    mem_undeclaredOf name events [] hmem hund rfl
  obtain ⟨a, b, hj⟩ := joinSep_mem (", ".toList) (undeclaredOf [] events) name hmem2
  refine ⟨cannotFindHead ++ joinSep (", ".toList) (undeclaredOf [] events) ++
    didYouForgetSuffix, ?_, ?_⟩
  · simp [babelNameResolution, hpos]
  · rw [hj]
    have h2 := containsSub_append_mid (cannotFindHead ++ a) name
      (b ++ didYouForgetSuffix)
    simpa [List.append_assoc] using h2

/-- Witness for claim C7: a single reference to the unbound, non-global
identifier myVar makes the Fast Compiler reject with a message containing
myVar. -/
theorem unresolvedNameRejection_w :
    ((("myVar".toList : Str), false) ∈ ([(("myVar".toList : Str), false)] : List (Str × Bool)) ∧
     memStr ("myVar".toList) jsGlobals = false) ∧
    (∃ m, babelNameResolution [(("myVar".toList : Str), false)] = .error m ∧
      containsSub ("myVar".toList) m = true) :=
  ⟨⟨by decide, by decide⟩,
   unresolvedNameRejection [(("myVar".toList : Str), false)] ("myVar".toList)
     (by decide) (by decide)⟩

/-! ## Orchestrator fallback and forced-path theorems -/

/-- Claim C1: for every source on which the Fast Compiler succeeds, if the
WebContainer path is selected but the WebContainer compiler rejects (after
a successful optional preload) and forceWebContainer is unset, compileScene
still resolves, with exactly the value of running the Fast Compiler
directly on that source with the same loader options (babelResult is that
run: the source passes the identical argument list at the fallback call
site and at the direct call site). -/
theorem fallbackSafety {V : Type} (code : Str) (opts : CompileOpts)
    (env : CompileEnv V) (v : V) (e : Str)
    (hBabel : env.babelResult = .ok v)
    (hSelected : (!opts.forceBabel &&
      ((opts.forceWebContainer || (detectFeatures code).needsWebContainer) &&
       env.wcAvailable)) = true)
    (hPreload : env.preloadResult = .ok ())
    (hWc : env.wcResult = .error e)
    (hNotForced : opts.forceWebContainer = false) :
    (compileSceneModel code opts env).1 = env.babelResult ∧
    (compileSceneModel code opts env).1 = .ok v := by
  have hparts := hSelected
  simp only [Bool.and_eq_true] at hparts
  obtain ⟨hfb, hor, hav⟩ := hparts
  have hfb' : opts.forceBabel = false := by simpa using hfb
  have hneeds : (detectFeatures code).needsWebContainer = true := by
    rw [hNotForced] at hor
    simpa using hor
  have hmain : (compileSceneModel code opts env).1 = env.babelResult := by
    by_cases hpl : (memStr canvasCommonsPkg (detectFeatures code).externalPackages &&
        opts.hasLoadCanvasCommons) = true
    · simp [compileSceneModel, hfb', hneeds, hav, hpl, hPreload, hWc, hNotForced]
    · simp only [Bool.not_eq_true] at hpl
      simp [compileSceneModel, hfb', hneeds, hav, hpl, hWc, hNotForced]
  exact ⟨hmain, by rw [hmain, hBabel]⟩

/-- Witness for claim C1: the leftpad source selects the WebContainer path
through feature detection; with the WebContainer compiler rejecting and
forceWebContainer unset, the call resolves to the Fast Compiler result. -/
theorem fallbackSafety_w :
    (({ wcAvailable := true, preloadResult := .ok (),
        wcResult := .error ("boom".toList),
        babelResult := .ok true } : CompileEnv Bool).babelResult = .ok true ∧
     (!(({ forceWebContainer := false, forceBabel := false,
           hasLoadCanvasCommons := false } : CompileOpts).forceBabel) &&
       ((({ forceWebContainer := false, forceBabel := false,
            hasLoadCanvasCommons := false } : CompileOpts).forceWebContainer ||
         (detectFeatures leftpadSource).needsWebContainer) && true)) = true) ∧
    ((compileSceneModel leftpadSource
        { forceWebContainer := false, forceBabel := false, hasLoadCanvasCommons := false }
        { wcAvailable := true, preloadResult := .ok (),
          wcResult := .error ("boom".toList), babelResult := .ok true }).1 =
      ({ wcAvailable := true, preloadResult := .ok (),
         wcResult := .error ("boom".toList),
         babelResult := .ok true } : CompileEnv Bool).babelResult ∧
     (compileSceneModel leftpadSource
        { forceWebContainer := false, forceBabel := false, hasLoadCanvasCommons := false }
        { wcAvailable := true, preloadResult := .ok (),
          wcResult := .error ("boom".toList), babelResult := .ok true }).1 = .ok true) :=
  ⟨⟨rfl, by decide⟩,
   fallbackSafety leftpadSource
     { forceWebContainer := false, forceBabel := false, hasLoadCanvasCommons := false }
     { wcAvailable := true, preloadResult := .ok (),
       wcResult := .error ("boom".toList), babelResult := .ok true }
     true ("boom".toList) rfl (by decide) rfl rfl rfl⟩

/-- Claim C2: with forceWebContainer set, forceBabel unset and the sandbox
available, a rejection of the WebContainer compiler with error e makes
compileScene reject with that same error, and the Fast Compiler is never
invoked. -/
theorem forcedPathHonored {V : Type} (code : Str) (opts : CompileOpts)
    (env : CompileEnv V) (e : Str)
    (hForce : opts.forceWebContainer = true)
    (hNoForceBabel : opts.forceBabel = false)
    (hAvail : env.wcAvailable = true)
    (hPreload : env.preloadResult = .ok ())
    (hWc : env.wcResult = .error e) :
    (compileSceneModel code opts env).1 = .error e ∧
    CompileEvent.usedBabel ∉ (compileSceneModel code opts env).2 := by
  by_cases hpl : (memStr canvasCommonsPkg (detectFeatures code).externalPackages &&
      opts.hasLoadCanvasCommons) = true
  · have hrun : compileSceneModel code opts env =
        (.error e, [CompileEvent.preloadCanvasCommons, CompileEvent.usedWebContainer]) := by
      simp [compileSceneModel, hNoForceBabel, hAvail, hpl, hPreload, hWc, hForce]
    rw [hrun]
    exact ⟨rfl, by simp⟩
  · simp only [Bool.not_eq_true] at hpl
    have hrun : compileSceneModel code opts env =
        (.error e, [CompileEvent.usedWebContainer]) := by
      simp [compileSceneModel, hNoForceBabel, hAvail, hpl, hWc, hForce]
    rw [hrun]
    exact ⟨rfl, by simp⟩

/-- Witness for claim C2: any source (here the empty one) with
forceWebContainer set and a failing WebContainer compiler: the call
rejects with the same error and no Babel fallback happens. -/
theorem forcedPathHonored_w :
    ((({ forceWebContainer := true, forceBabel := false,
         hasLoadCanvasCommons := false } : CompileOpts).forceWebContainer = true) ∧
     (({ wcAvailable := true, preloadResult := .ok (),
         wcResult := .error ("deterministic failure".toList),
         babelResult := .ok false } : CompileEnv Bool).wcResult =
       .error ("deterministic failure".toList))) ∧
    ((compileSceneModel []
        { forceWebContainer := true, forceBabel := false, hasLoadCanvasCommons := false }
        { wcAvailable := true, preloadResult := .ok (),
          wcResult := .error ("deterministic failure".toList),
          babelResult := .ok false }).1 = .error ("deterministic failure".toList) ∧
     CompileEvent.usedBabel ∉
       (compileSceneModel []
         { forceWebContainer := true, forceBabel := false, hasLoadCanvasCommons := false }
         { wcAvailable := true, preloadResult := .ok (),
           wcResult := .error ("deterministic failure".toList),
           babelResult := .ok false }).2) :=
  ⟨⟨rfl, rfl⟩,
   forcedPathHonored []
     { forceWebContainer := true, forceBabel := false, hasLoadCanvasCommons := false }
     { wcAvailable := true, preloadResult := .ok (),
       wcResult := .error ("deterministic failure".toList), babelResult := .ok false }
     ("deterministic failure".toList) rfl rfl rfl rfl rfl⟩

/-! ## Install caching and guard theorems -/

theorem insertStr_length (x : Str) : ∀ l, (insertStr x l).length = l.length + 1 := by
  intro l
  induction l with
  | nil => rfl
  | cons y ys ih =>
    by_cases h : lexLe x y = true
    · simp [insertStr, h]
    · simp only [Bool.not_eq_true] at h
      simp [insertStr, h, ih]

theorem sortStr_length : ∀ l, (sortStr l).length = l.length := by
  intro l
  induction l with
  | nil => rfl
  | cons x xs ih => simp [sortStr, insertStr_length, ih]

theorem computeCurrentDeps_ne_nil (code : Str) (ext : List Str) :
    computeCurrentDeps code ext ≠ [] := by
  intro h
  have h1 : (computeCurrentDeps code ext).length = 0 := by rw [h]; rfl
  rw [computeCurrentDeps, sortStr_length] at h1
  simp [baseDependencyNames] at h1

/-- Claim C3: from the initial singleton sandbox state, two successive
sandboxed compilations whose computed sorted dependency-name lists are
equal spawn the package-manager install exactly once: the first call
installs (successfully, exit code 0) and persists the list, the second
call compares the equal list against lastDependencies, which is now
non-empty, and returns ok without spawning a second install. -/
theorem installCaching (code1 code2 : Str) (ext1 ext2 : List Str) (ec2 : Int)
    (hdeps : computeCurrentDeps code1 ext1 = computeCurrentDeps code2 ext2) :
    ((installDependenciesModel ⟨false, []⟩ (computeCurrentDeps code1 ext1) 0).spawned = true ∧
     (installDependenciesModel ⟨false, []⟩ (computeCurrentDeps code1 ext1) 0).result = .ok ()) ∧
    ((installDependenciesModel
        (installDependenciesModel ⟨false, []⟩ (computeCurrentDeps code1 ext1) 0).finalState
        (computeCurrentDeps code2 ext2) ec2).spawned = false ∧
     (installDependenciesModel
        (installDependenciesModel ⟨false, []⟩ (computeCurrentDeps code1 ext1) 0).finalState
        (computeCurrentDeps code2 ext2) ec2).result = .ok ()) := by
  have hne : computeCurrentDeps code1 ext1 ≠ [] := computeCurrentDeps_ne_nil code1 ext1
  have h1 : installDependenciesModel ⟨false, []⟩ (computeCurrentDeps code1 ext1) 0 =
      { result := .ok (), spawned := true,
        finalState :=
          { installing := false, lastDependencies := computeCurrentDeps code1 ext1 } } := by
    simp [installDependenciesModel]
  have h2 : installDependenciesModel
      ⟨false, computeCurrentDeps code1 ext1⟩ (computeCurrentDeps code2 ext2) ec2 =
      { result := .ok (), spawned := false,
        finalState :=
          { installing := false, lastDependencies := computeCurrentDeps code1 ext1 } } := by
    rw [← hdeps]
    simp [installDependenciesModel, List.length_pos.mpr hne]
  rw [h1]
  exact ⟨⟨rfl, rfl⟩, by rw [h2]; exact ⟨rfl, rfl⟩⟩

/-- Witness for claim C3: two compilations of the empty source with no
external packages compute equal dependency lists; the install runs once. -/
theorem installCaching_w :
    (computeCurrentDeps [] [] = computeCurrentDeps [] []) ∧
    (((installDependenciesModel ⟨false, []⟩ (computeCurrentDeps [] []) 0).spawned = true ∧
      (installDependenciesModel ⟨false, []⟩ (computeCurrentDeps [] []) 0).result = .ok ()) ∧
     ((installDependenciesModel
         (installDependenciesModel ⟨false, []⟩ (computeCurrentDeps [] []) 0).finalState
         (computeCurrentDeps [] []) 5).spawned = false ∧
      (installDependenciesModel
         (installDependenciesModel ⟨false, []⟩ (computeCurrentDeps [] []) 0).finalState
         (computeCurrentDeps [] []) 5).result = .ok ())) :=
  ⟨rfl, installCaching [] [] [] [] 5 rfl⟩

/-- Claim C4 (amended): for every call to installDependencies that
determines an install is needed, (1) if the installing flag is already
true the call rejects with the explicit installation-already-in-progress
error without spawning an install and leaves the state untouched; (2) on
every exit of a call that passes the guard and spawns an install, whether
it resolves or rejects, the installing flag is false again; and (3)
lastDependencies is updated to the new sorted list exactly when the
spawned install exits with code 0, and is left unchanged when it fails.
The amendment restricts clause (2) to the calls that pass the guard: on
the guard-rejection exit of clause (1) the flag stays true, since it is
owned by the concurrent install still running (see the counterexample). -/
theorem installGuardDiscipline (st : WCState) (deps : List Str) (ec : Int)
    (hneed : deps ≠ st.lastDependencies) :
    (st.installing = true →
      (installDependenciesModel st deps ec).result = .error .alreadyInProgress ∧
      (installDependenciesModel st deps ec).spawned = false ∧
      (installDependenciesModel st deps ec).finalState = st) ∧
    (st.installing = false →
      (installDependenciesModel st deps ec).spawned = true ∧
      (installDependenciesModel st deps ec).finalState.installing = false) ∧
    (st.installing = false → ec = 0 →
      (installDependenciesModel st deps ec).finalState.lastDependencies = deps ∧
      (installDependenciesModel st deps ec).result = .ok ()) ∧
    (st.installing = false → ec ≠ 0 →
      (installDependenciesModel st deps ec).finalState.lastDependencies =
        st.lastDependencies ∧
      (installDependenciesModel st deps ec).result = .error (.exitFailure ec)) := by
  refine ⟨?_, ?_, ?_, ?_⟩
  · intro hinst
    simp [installDependenciesModel, hneed, hinst]
  · intro hinst
    by_cases hec : ec = 0
    · simp [installDependenciesModel, hneed, hinst, hec]
    · simp [installDependenciesModel, hneed, hinst, hec]
  · intro hinst hec
    simp [installDependenciesModel, hneed, hinst, hec]
  · intro hinst hec
    simp [installDependenciesModel, hneed, hinst, hec]

/-- Witness for claim C4: a needed install from the clean singleton state
with exit code 0. -/
theorem installGuardDiscipline_w :
    (computeCurrentDeps [] [] ≠ (WCState.mk false []).lastDependencies) ∧
    (((WCState.mk false []).installing = true →
      (installDependenciesModel ⟨false, []⟩ (computeCurrentDeps [] []) 0).result =
        .error .alreadyInProgress ∧
      (installDependenciesModel ⟨false, []⟩ (computeCurrentDeps [] []) 0).spawned = false ∧
      (installDependenciesModel ⟨false, []⟩ (computeCurrentDeps [] []) 0).finalState =
        ⟨false, []⟩) ∧
     ((WCState.mk false []).installing = false →
      (installDependenciesModel ⟨false, []⟩ (computeCurrentDeps [] []) 0).spawned = true ∧
      (installDependenciesModel ⟨false, []⟩
        (computeCurrentDeps [] []) 0).finalState.installing = false) ∧
     ((WCState.mk false []).installing = false → (0 : Int) = 0 →
      (installDependenciesModel ⟨false, []⟩
        (computeCurrentDeps [] []) 0).finalState.lastDependencies =
          computeCurrentDeps [] [] ∧
      (installDependenciesModel ⟨false, []⟩ (computeCurrentDeps [] []) 0).result = .ok ()) ∧
     ((WCState.mk false []).installing = false → (0 : Int) ≠ 0 →
      (installDependenciesModel ⟨false, []⟩
        (computeCurrentDeps [] []) 0).finalState.lastDependencies =
          (WCState.mk false []).lastDependencies ∧
      (installDependenciesModel ⟨false, []⟩ (computeCurrentDeps [] []) 0).result =
        .error (.exitFailure 0))) :=
  ⟨by decide, installGuardDiscipline ⟨false, []⟩ (computeCurrentDeps [] []) 0 (by decide)⟩

/-- Counterexample for claim C4 as stated: a call that determines an
install is needed while the installing flag is already true rejects, and
on that exit the installing flag is still true, contradicting the
clause of the claim that on every exit of such a call the flag is false
again. -/
theorem installGuardDiscipline_cex :
    (computeCurrentDeps [] [] ≠ (WCState.mk true []).lastDependencies) ∧
    (installDependenciesModel ⟨true, []⟩ (computeCurrentDeps [] []) 0).result =
      .error .alreadyInProgress ∧
    (installDependenciesModel ⟨true, []⟩
      (computeCurrentDeps [] []) 0).finalState.installing = true :=
  ⟨by decide, rfl, rfl⟩

/-! ## Default-export theorems -/

/-- Claim C6: a compiled module without a default export (whose
default member is undefined) is rejected by both compiler paths, each with an
error message containing "must export a default scene"; the error has the
same shape on both paths: a single wrapped message containing that
phrase. -/
theorem defaultExportRequired :
    babelFinalStage .undef = .error (babelWrapHead ++ babelNoDefaultMsg) ∧
    containsSub scenePhrase (babelWrapHead ++ babelNoDefaultMsg) = true ∧
    wcFinalStage .undef = .error (wcWrapHead ++ wcNoDefaultMsg) ∧
    containsSub scenePhrase (wcWrapHead ++ wcNoDefaultMsg) = true :=
  ⟨rfl, by decide, rfl, by decide⟩

/-- Claim C10: the default-export checks on both paths test truthiness of
module.default, not presence, so falsy default exports (0, the empty
string, false) are rejected with exactly the same error as a missing
default export, on both paths. -/
theorem falsyDefaultRejected :
    (babelFinalStage (.numv 0) = babelFinalStage .undef ∧
     babelFinalStage (.strv []) = babelFinalStage .undef ∧
     babelFinalStage (.boolv false) = babelFinalStage .undef ∧
     babelFinalStage .undef = .error (babelWrapHead ++ babelNoDefaultMsg)) ∧
    (wcFinalStage (.numv 0) = wcFinalStage .undef ∧
     wcFinalStage (.strv []) = wcFinalStage .undef ∧
     wcFinalStage (.boolv false) = wcFinalStage .undef ∧
     wcFinalStage .undef = .error (wcWrapHead ++ wcNoDefaultMsg)) :=
  ⟨⟨rfl, rfl, rfl, rfl⟩, ⟨rfl, rfl, rfl, rfl⟩⟩

/-! ## Boot interleaving theorem -/

/-- Claim C9 is refuted by the code: bootWebContainer has no shared
in-flight promise, so in the interleaving where a second caller checks
the state while the boot of the first caller is pending, both checks initiate
a boot and two boots are started, not one. -/
theorem singleFlightBootViolated :
    (bootCheck { instRef := none, booted := false, bootsStarted := 0 }).2 = true ∧
    (bootCheck (bootCheck { instRef := none, booted := false, bootsStarted := 0 }).1).2 =
      true ∧
    doubleBootRun.bootsStarted = 2 :=
  ⟨rfl, rfl, rfl⟩

end Fiddle
